import Mathlib

/-!
Verification of the core logic of `music_player_app.py`: the library
indexer (metadata extraction, album grouping, track sorting, album-art
resolution) and the playback controller (play/next/prev, the polling
auto-advance loop, favorites).

External collaborators are modelled explicitly:
* the filesystem / tag-reading library (`mutagen`) as an `FS` value mapping
  paths to parsed tag files and directories to their listings;
* the media engine (`vlc`) as per-poll observations (`EngineObs`) of its
  reported length, position and playing flag, since the code only ever
  reads it through `get_length` / `get_time` / `is_playing`;
* Python exceptions as `Option` results (`none` = the call raised), and the
  catch-all `except` in `get_metadata` as explicit early returns of the
  partially-built metadata dictionary.
-/

/-- Raw bytes of an image, as read from an embedded picture or a folder file. -/
abbrev Bytes := List Nat

/-- Result of `mutagen.File(path)`.  `flac` and `mp3` carry the tag fields the
code reads (`FLAC` vorbis comments / `ID3` frames, each a key with a list of
text values, plus embedded pictures).  `.m4a` and `.ogg` files parse to `MP4` /
`OggVorbis` objects, which match neither `isinstance` branch; they still carry
their tags here to show the code ignores them.  `unreadable` means
`File(path)` raised. -/
inductive TagFile where
  | flac (tags : List (String × List String)) (pictures : List Bytes)
  | mp3 (frames : List (String × List String)) (apics : List Bytes)
  | mp4 (tags : List (String × List String))
  | ogg (tags : List (String × List String))
  | unreadable
deriving Repr, DecidableEq

/-- One entry of `os.listdir`: a file name and the bytes `open(...).read()`
would return for it. -/
structure DirEntry where
  name : String
  bytes : Bytes
deriving Repr, DecidableEq

/-- The filesystem as the program observes it: audio files in `os.walk`
order, and directory listings used by the folder-art fallback. -/
structure FS where
  files : List (String × TagFile)
  dirs : List (String × List DirEntry)
deriving Repr, DecidableEq

/-- The metadata dictionary built by `get_metadata`.  Every key is always
present (the dict is initialised with all five keys and none is ever
deleted). -/
structure Meta where
  title : String
  artist : String
  album : String
  track : Int
  art : Option Bytes
deriving Repr, DecidableEq

/-- The initial value of the `meta` dictionary in `get_metadata`. -/
def defaultMeta : Meta :=
  { title := "Unknown", artist := "Unknown Artist", album := "Unknown Album"
    track := 0, art := none }

/-- Python `str.isspace` characters relevant to `int()` stripping (ASCII
whitespace; tag text is ASCII in the inputs considered here). -/
def pyIsSpace (c : Char) : Bool :=
  c == ' ' || c == '\t' || c == '\n' || c == '\r' || c.toNat == 11 || c.toNat == 12

/-- `str.strip()`: remove leading and trailing whitespace. -/
def pyStrip (cs : List Char) : List Char :=
  ((cs.dropWhile pyIsSpace).reverse.dropWhile pyIsSpace).reverse

/-- Digit run of a Python `int()` literal: decimal digits, with single
underscores allowed between digits (`int("1_0") == 10`). -/
def pyDigits : Nat → List Char → Option Nat
  | acc, [] => some acc
  | acc, c :: cs =>
    if c.isDigit then pyDigits (acc * 10 + (c.toNat - 48)) cs
    else if c = '_' then
      match cs with
      | [] => none
      | d :: _ => if d.isDigit then pyDigits acc cs else none
    else none

/-- Python `int(s)` on a string: strip surrounding whitespace, optional single
sign, then a nonempty digit run; `none` models `ValueError`. -/
def pythonInt (s : String) : Option Int :=
  let cs := pyStrip s.data
  match cs with
  | [] => none
  | c :: rest =>
    let signed : Int × List Char :=
      if c = '-' then (-1, rest) else if c = '+' then (1, rest) else (1, cs)
    match signed.2 with
    | [] => none
    | d :: _ =>
      if d.isDigit then (pyDigits 0 signed.2).map (fun n => signed.1 * n)
      else none

/-- `str(track_num).split('/')[0]`: the prefix of the text before the first
slash (the whole text when there is no slash). -/
def before_slash (s : String) : String :=
  String.mk (s.data.takeWhile (fun c => c ≠ '/'))

/-- `int(str(track_num).split('/')[0])` with `except (ValueError, IndexError):
meta['track'] = 0` — a parse failure yields 0, never an error. -/
def parse_track (track_num : String) : Int :=
  match pythonInt (before_slash track_num) with
  | some n => n
  | none => 0

/-- Python `str.lower()` (ASCII case folding; the file names compared here
are ASCII). -/
def str_lower (s : String) : String :=
  String.mk (s.data.map Char.toLower)

/-- Python `str.endswith`. -/
def ends_with (s t : String) : Bool :=
  t.data.isSuffixOf s.data

/-- `os.path.dirname`: the path up to (excluding) the last separator, empty
when there is none. -/
def dirname (p : String) : String :=
  String.mk (((p.data.reverse.dropWhile (fun c => c ≠ '/')).drop 1).reverse)

/-- The fixed candidate list searched by `load_folder_art`, in order. -/
def art_candidates : List String :=
  ["cover.jpg", "cover.png", "folder.jpg", "folder.png", "front.jpg",
   "front.png", "album.jpg", "album.png", "artwork.jpg", "artwork.png"]

/-- `lookup = {name.lower(): name for name in entries}; lookup.get(name)`:
the last directory entry whose lowercased name equals `name` (a later entry
overwrites an earlier one in the dict comprehension). -/
def lower_lookup (entries : List DirEntry) (name : String) : Option DirEntry :=
  entries.foldl (fun acc e => if str_lower e.name == name then some e else acc) none

/-- `load_folder_art(path)`: list the containing directory (`none` when
`os.listdir` raises), then return the bytes of the first candidate name with a
case-insensitive match. -/
def load_folder_art (fs : FS) (path : String) : Option Bytes :=
  match fs.dirs.lookup (dirname path) with
  | none => none
  | some entries =>
    art_candidates.findSome? (fun name => (lower_lookup entries name).map DirEntry.bytes)

/-- `audio.get(key, default)` on a FLAC vorbis-comment dict; mutagen
normalises vorbis keys case-insensitively, the code queries lowercase keys. -/
def vorbis_get (tags : List (String × List String)) (key : String) : Option (List String) :=
  (tags.find? (fun kv => str_lower kv.1 == key)).map Prod.snd

/-- `key in audio` / `audio[key].text` on an ID3 (MP3) tag dict. -/
def id3_get (frames : List (String × List String)) (key : String) : Option (List String) :=
  (frames.find? (fun kv => kv.1 == key)).map Prod.snd

/-- `get_metadata(path)`.  The whole extraction runs inside one
`try ... except Exception: pass`, so an exception at any point returns the
partially-built dictionary (in particular skipping the folder-art fallback);
the `[0]` indexing of an empty tag-value list is the one modelled raise. -/
def get_metadata (fs : FS) (path : String) : Meta :=
  let meta := defaultMeta
  match fs.files.lookup path with
  | none => meta
  | some .unreadable => meta
  | some (.flac tags pictures) =>
    match (vorbis_get tags "title").getD ["Unknown"] with
    | [] => meta
    | t :: _ =>
      let meta := { meta with title := t }
      match (vorbis_get tags "artist").getD ["Unknown Artist"] with
      | [] => meta
      | ar :: _ =>
        let meta := { meta with artist := ar }
        match (vorbis_get tags "album").getD ["Unknown Album"] with
        | [] => meta
        | al :: _ =>
          let meta := { meta with album := al }
          match (vorbis_get tags "tracknumber").getD ["0"] with
          | [] => meta
          | tn :: _ =>
            let meta := { meta with track := parse_track tn }
            let meta :=
              match pictures with
              | [] => meta
              | p :: _ => { meta with art := some p }
            if meta.art.isNone then { meta with art := load_folder_art fs path }
            else meta
  | some (.mp3 frames apics) =>
    -- Each field: `meta[f] = str(audio.get(K, default))` then, when the frame
    -- is present, `meta[f] = audio[K].text[0]`; an empty `.text` raises after
    -- the transient `str(frame)` (= "") assignment.
    match id3_get frames "TIT2" with
    | some [] => { meta with title := "" }
    | fr =>
      let meta := { meta with title := ((fr.getD ["Unknown"]).headD "Unknown") }
      match id3_get frames "TPE1" with
      | some [] => { meta with artist := "" }
      | fr =>
        let meta := { meta with artist := ((fr.getD ["Unknown Artist"]).headD "Unknown Artist") }
        match id3_get frames "TALB" with
        | some [] => { meta with album := "" }
        | fr =>
          let meta := { meta with album := ((fr.getD ["Unknown Album"]).headD "Unknown Album") }
          match id3_get frames "TRCK" with
          | some [] => meta
          | fr =>
            let meta :=
              match fr with
              | some (tn :: _) => { meta with track := parse_track tn }
              | _ => meta
            let meta :=
              match apics with
              | [] => meta
              | p :: _ => { meta with art := some p }
            if meta.art.isNone then { meta with art := load_folder_art fs path }
            else meta
  | some (.mp4 _) =>
    if meta.art.isNone then { meta with art := load_folder_art fs path } else meta
  | some (.ogg _) =>
    if meta.art.isNone then { meta with art := load_folder_art fs path } else meta

/-- `get_track_number(path) = get_metadata(path).get('track', 999)`.  The
`'track'` key is always present in the dictionary `get_metadata` builds, so
the 999 default of `dict.get` is unreachable and the sort key is the raw
`'track'` value. -/
def get_track_number (fs : FS) (path : String) : Int :=
  (get_metadata fs path).track

/-- The extension allow-list check `file.lower().endswith(('.flac', '.mp3',
'.m4a', '.ogg'))`. -/
def allowed_ext (file : String) : Bool :=
  let f := str_lower file
  ends_with f ".flac" || ends_with f ".mp3" || ends_with f ".m4a" || ends_with f ".ogg"

/-- The files the directory walk visits, in order, restricted to the
extension allow-list. -/
def walk_paths (fs : FS) : List String :=
  (fs.files.filter (fun pf => allowed_ext pf.1)).map Prod.fst

/-- The value stored in `album_metadata` for an album: the artist and art of
the file whose scan inserted the entry. -/
structure AlbumMeta where
  artist : String
  art : Option Bytes
deriving Repr, DecidableEq

/-- The three dictionaries `scan_music_library` builds, as association lists
in dict insertion order. -/
structure Index where
  albums : List (String × List String)
  album_metadata : List (String × AlbumMeta)
  artists : List (String × List String)
deriving Repr, DecidableEq

/-- `self.albums.setdefault(album, []).append(path)`: append to the existing
list, inserting the key at the end of the dict when absent. -/
def setdefaultAppend : List (String × List String) → String → String → List (String × List String)
  | [], k, v => [(k, [v])]
  | (k0, vs) :: rest, k, v =>
    if k0 == k then (k0, vs ++ [v]) :: rest
    else (k0, vs) :: setdefaultAppend rest k v

/-- `self.album_metadata.setdefault(album, {...})`: insert only when the key
is absent; an existing entry is never overwritten. -/
def setdefaultMeta : List (String × AlbumMeta) → String → AlbumMeta → List (String × AlbumMeta)
  | [], k, m => [(k, m)]
  | (k0, m0) :: rest, k, m =>
    if k0 == k then (k0, m0) :: rest
    else (k0, m0) :: setdefaultMeta rest k m

/-- `self.artists.setdefault(artist, [])` followed by
`if album not in self.artists[artist]: self.artists[artist].append(album)`. -/
def artistAdd : List (String × List String) → String → String → List (String × List String)
  | [], ar, al => [(ar, [al])]
  | (k0, als) :: rest, ar, al =>
    if k0 == ar then (k0, if al ∈ als then als else als ++ [al]) :: rest
    else (k0, als) :: artistAdd rest ar al

/-- The body of the scan loop for one file. -/
def scan_step (fs : FS) (idx : Index) (path : String) : Index :=
  let meta := get_metadata fs path
  { albums := setdefaultAppend idx.albums meta.album path
    album_metadata := setdefaultMeta idx.album_metadata meta.album ⟨meta.artist, meta.art⟩
    artists := artistAdd idx.artists meta.artist meta.album }

/-- The sort key order of `self.albums[album].sort(key=self.get_track_number)`. -/
def track_le (fs : FS) (a b : String) : Prop :=
  get_track_number fs a ≤ get_track_number fs b

instance (fs : FS) : DecidableRel (track_le fs) :=
  fun _ _ => inferInstanceAs (Decidable (_ ≤ _))

instance (fs : FS) : IsTotal String (track_le fs) :=
  ⟨fun _ _ => Int.le_total _ _⟩

instance (fs : FS) : IsTrans String (track_le fs) :=
  ⟨fun _ _ _ h1 h2 => le_trans h1 h2⟩

/-- `scan_music_library`: group every walked file, then stably sort each
album's path list by track number (Python `list.sort` is stable; insertion
sort with a non-strict key order is the same stable sort). -/
def scan_music_library (fs : FS) : Index :=
  let idx := (walk_paths fs).foldl (scan_step fs) ⟨[], [], []⟩
  { idx with albums := idx.albums.map (fun kv => (kv.1, List.insertionSort (track_le fs) kv.2)) }

/-- The playback-controller state: the current album's track paths, current
index, the edge-triggered ending flag, the engine commands last issued
(`set_media` / `play`), the now-playing display data, the play-button state
and the progress display `(maximum, value)`. -/
structure PState where
  current_tracks : List String
  current_index : Int
  track_ending : Bool
  engine_media : Option String
  engine_playing : Bool
  play_button : Bool
  now_playing : Option Meta
  progress : Option (Int × Int)
deriving Repr, DecidableEq

/-- Controller state right after `__init__`: no tracks, index -1, flag
clear, nothing loaded. -/
def initPState : PState :=
  { current_tracks := [], current_index := -1, track_ending := false
    engine_media := none, engine_playing := false, play_button := false
    now_playing := none, progress := none }

/-- `play_track(index)`: out of range is an early `return`; otherwise set the
index, clear the ending flag, load and play the path, update the play button
and the now-playing display. -/
def play_track (fs : FS) (s : PState) (index : Int) : PState :=
  if index < 0 ∨ (s.current_tracks.length : Int) ≤ index then s
  else
    let path := s.current_tracks.getD index.toNat ""
    { s with current_index := index
             track_ending := false
             engine_media := some path
             engine_playing := true
             play_button := true
             now_playing := some (get_metadata fs path) }

/-- `next_track`: `play_track((self.current_index + 1) % len(self.current_tracks))`.
`none` models the `ZeroDivisionError` Python raises when the track list is
empty; `Int.emod` matches Python `%` for a positive modulus. -/
def next_track (fs : FS) (s : PState) : Option PState :=
  if (s.current_tracks.length : Int) = 0 then none
  else some (play_track fs s ((s.current_index + 1).emod s.current_tracks.length))

/-- `prev_track`: `play_track((self.current_index - 1) % len(self.current_tracks))`. -/
def prev_track (fs : FS) (s : PState) : Option PState :=
  if (s.current_tracks.length : Int) = 0 then none
  else some (play_track fs s ((s.current_index - 1).emod s.current_tracks.length))

/-- What one timer tick reads from the media engine: `get_length()`,
`get_time()`, `is_playing()`. -/
structure EngineObs where
  length : Int
  time : Int
  playing : Bool
deriving Repr, DecidableEq

/-- `update_progress` on one tick: skip when the reported length is not
positive; otherwise update the progress display and, when the position is in
the trailing 500 ms window, the engine reports playing and the ending flag is
clear, set the flag and call `next_track()`.  Returns the new state and how
many times `next_track` was invoked; `none` models the tick raising. -/
def update_progress (fs : FS) (obs : EngineObs) (s : PState) : Option (PState × Nat) :=
  if obs.length ≤ 0 then some (s, 0)
  else
    let s := { s with progress := some (obs.length, obs.time) }
    if obs.length - 500 ≤ obs.time ∧ obs.playing = true ∧ s.track_ending = false then
      match next_track fs { s with track_ending := true } with
      | none => none
      | some s2 => some (s2, 1)
    else some (s, 0)

/-- A sequence of consecutive timer ticks, accumulating the number of
`next_track` invocations. -/
def poll_seq (fs : FS) : List EngineObs → PState → Option (PState × Nat)
  | [], s => some (s, 0)
  | o :: os, s =>
    match update_progress fs o s with
    | none => none
    | some (s1, k) =>
      match poll_seq fs os s1 with
      | none => none
      | some (s2, m) => some (s2, k + m)

/-- The list mutation of `toggle_favorite`: `list.remove` deletes the first
occurrence; otherwise the album is appended at the end. -/
def toggle_favorite (favorites : List String) (album : String) : List String :=
  if album ∈ favorites then favorites.erase album else favorites ++ [album]

/-- The favorites-related state: the in-memory list, the album the toggle
button refers to, and the persisted file contents. -/
structure FavCtx where
  favorites : List String
  current_album : String
  disk : Option (List String)
deriving Repr, DecidableEq

/-- `save_favorites`: `json.dump(self.favorites, f)` (best-effort; the
success path writes the whole in-memory list). -/
def save_favorites (c : FavCtx) : FavCtx :=
  { c with disk := some c.favorites }

/-- The state mutation of the `toggle_favorite` handler: flip membership,
then persist the whole list. -/
def toggle_favorite_action (c : FavCtx) : FavCtx :=
  save_favorites { c with favorites := toggle_favorite c.favorites c.current_album }

/-- `self.favorites_per_page` in this variant. -/
def favorites_per_page : Nat := 10

/-- Rendering the favorites page: filter the favorites down to albums present
in the index (`fav_albums = [a for a in self.favorites if a in self.albums]`),
slice the current page, and leave the state untouched (the method only writes
to widgets). -/
def update_favorites_page (albums : List (String × List String)) (page : Nat) (c : FavCtx) :
    FavCtx × List String :=
  let fav_albums := c.favorites.filter (fun a => (albums.lookup a).isSome)
  (c, (fav_albums.drop (page * favorites_per_page)).take favorites_per_page)


/-- Dictionary access `d[k]` with a `[]` default, for the grouped album and
artist lists. -/
def lookupD (l : List (String × List String)) (k : String) : List String :=
  (l.lookup k).getD []

/-- The files of an album in discovery order: the walked files whose
extracted album name matches, before the sort phase. -/
def discovered_tracks (fs : FS) (album : String) : List String :=
  (walk_paths fs).filter (fun p => (get_metadata fs p).album == album)

/-- A two-track library on one album where the later-discovered file has no
`tracknumber` field: used to exhibit how untagged tracks sort. -/
def fs_untagged_first : FS :=
  ⟨[("root/a.flac", .flac [("album", ["X"]), ("tracknumber", ["5"])] []),
    ("root/b.flac", .flac [("album", ["X"])] [])], []⟩

/-- A six-file library exercising every track-number parsing path: `N/Total`
text, unparseable text, and a missing field, for FLAC and MP3 alike. -/
def fs_track_parsing : FS :=
  ⟨[("a1.flac", .flac [("tracknumber", ["3/12"])] []),
    ("a2.flac", .flac [("tracknumber", ["abc"])] []),
    ("a3.flac", .flac [("title", ["T"])] []),
    ("a4.mp3", .mp3 [("TRCK", ["7/9"])] []),
    ("a5.mp3", .mp3 [("TRCK", ["xy"])] []),
    ("a6.mp3", .mp3 [("TIT2", ["T"])] [])], []⟩

/-- A two-track album whose first-discovered file has no art anywhere while
the second carries an embedded picture. -/
def fs_first_track_artless : FS :=
  ⟨[("d/first.flac", .flac [("album", ["X"])] []),
    ("d/second.flac", .flac [("album", ["X"])] [[1, 2, 3]])], []⟩

/-- A library exercising art resolution: a track with both an embedded
picture and a sibling `cover.jpg`, an artless track falling back to the
folder image, and a second folder whose only image is `Folder.PNG`. -/
def fs_art_resolution : FS :=
  ⟨[("d/e1.flac", .flac [] [[1]]),
    ("d/e2.flac", .flac [] []),
    ("d2/x.flac", .flac [] [])],
   [("d", [⟨"cover.jpg", [9]⟩]), ("d2", [⟨"Folder.PNG", [7]⟩, ⟨"notes.txt", [8]⟩])]⟩

/-- One `.m4a` file with tags present, plus a folder image: `mutagen.File`
yields an `MP4` object, which matches neither `isinstance` branch of
`get_metadata`. -/
def fs_m4a_ignored : FS :=
  ⟨[("m/x.m4a", .mp4 [("title", ["T"]), ("artist", ["A"])])],
   [("m", [⟨"cover.jpg", [5]⟩])]⟩

/-! ## Claim theorems -/

/-- C1 (code bug): the edge-triggered flag does not make auto-advance fire
once per completion.  `update_progress` sets `track_ending` and calls
`next_track`, but `play_track` (reached through `next_track` whenever the
track list is nonempty) immediately resets the flag; so on the spec's own
scenario — length 10000 ms, polls at positions 9600, 9700 and 9800 ms, all
inside the trailing 500 ms window with the engine reporting playing —
`next()` is invoked at every one of the three polls, three times in total
instead of exactly once. -/
theorem c1_autoadvance_fires_every_poll :
    (poll_seq (⟨[], []⟩ : FS)
        [⟨10000, 9600, true⟩, ⟨10000, 9700, true⟩, ⟨10000, 9800, true⟩]
        { initPState with current_tracks := ["a", "b", "c"], current_index := 0 }).map Prod.snd
      = some 3 := by decide

/-- C3 counterexample: toggling an album that is present but not last does
not restore the original order: from `["A", "B"]`, toggling `"A"` twice
yields `["B", "A"]`. -/
theorem c3_double_toggle_moves_to_end :
    toggle_favorite (toggle_favorite ["A", "B"] "A") "A" = ["B", "A"]
      ∧ (["B", "A"] : List String) ≠ ["A", "B"] := by decide

/-- C3 (amended): for a favorites list containing the album at most once,
toggling twice restores the membership (the result is a permutation of the
original list); it restores the exact list when the album was absent.  When
the album was present it is re-appended at the end, so the original order is
only guaranteed up to permutation. -/
theorem c3_double_toggle_restores_membership (favorites : List String) (album : String)
    (h : favorites.count album ≤ 1) :
    (toggle_favorite (toggle_favorite favorites album) album).Perm favorites
      ∧ (album ∉ favorites →
          toggle_favorite (toggle_favorite favorites album) album = favorites) := by
  by_cases hmem : album ∈ favorites
  · have hpos : 0 < favorites.count album := List.count_pos_iff.mpr hmem
    have hone : favorites.count album = 1 := le_antisymm h hpos
    have hnot : album ∉ favorites.erase album := by
      intro hmem2
      have h2 : 0 < (favorites.erase album).count album := List.count_pos_iff.mpr hmem2
      rw [List.count_erase_self, hone] at h2
      omega
    constructor
    · simp only [toggle_favorite, if_pos hmem, if_neg hnot]
      exact (List.perm_append_singleton _ _).trans (List.perm_cons_erase hmem).symm
    · intro habs
      exact absurd hmem habs
  · have hmem2 : album ∈ favorites ++ [album] := by simp
    constructor
    · simp only [toggle_favorite, if_neg hmem, if_pos hmem2]
      rw [List.erase_append_right _ hmem, List.erase_cons_head]
      simp
    · intro _
      simp only [toggle_favorite, if_neg hmem, if_pos hmem2]
      rw [List.erase_append_right _ hmem, List.erase_cons_head]
      simp

/-- C3 witness: the amended statement at `favorites = ["A", "B"]`,
`album = "A"`. -/
theorem c3_double_toggle_restores_membership_witness :
    (toggle_favorite (toggle_favorite ["A", "B"] "A") "A").Perm ["A", "B"]
      ∧ ("A" ∉ (["A", "B"] : List String) →
          toggle_favorite (toggle_favorite ["A", "B"] "A") "A" = ["A", "B"]) :=
  c3_double_toggle_restores_membership ["A", "B"] "A" (by decide)

/-- C4: on a nonempty track list `next_track` / `prev_track` set the current
index to `(i ± 1) mod n` (Python `%`, i.e. `Int.emod`, on the positive track
count), so index `n - 1` wraps forward to 0 and index 0 wraps back to
`n - 1`. -/
theorem play_track_in_range (fs : FS) (s : PState) (index : Int)
    (h0 : 0 ≤ index) (h1 : index < (s.current_tracks.length : Int)) :
    play_track fs s index =
      { s with current_index := index
               track_ending := false
               engine_media := some (s.current_tracks.getD index.toNat "")
               engine_playing := true
               play_button := true
               now_playing := some (get_metadata fs (s.current_tracks.getD index.toNat "")) } := by
  have hcond : ¬(index < 0 ∨ (s.current_tracks.length : Int) ≤ index) := by omega
  simp only [play_track, if_neg hcond]

theorem c4_next_prev_wrap (fs : FS) (s : PState) (h : 0 < s.current_tracks.length) :
    (next_track fs s).map (fun t => t.current_index)
        = some ((s.current_index + 1).emod (s.current_tracks.length : Int))
      ∧ (prev_track fs s).map (fun t => t.current_index)
        = some ((s.current_index - 1).emod (s.current_tracks.length : Int)) := by
  have hne : ((s.current_tracks.length : Int)) ≠ 0 := by
    exact_mod_cast Nat.pos_iff_ne_zero.mp h
  have hposn : (0 : Int) < (s.current_tracks.length : Int) := by exact_mod_cast h
  constructor
  · have h0 : (0 : Int) ≤ (s.current_index + 1).emod (s.current_tracks.length : Int) :=
      Int.emod_nonneg _ hne
    have h1 : (s.current_index + 1).emod (s.current_tracks.length : Int)
        < (s.current_tracks.length : Int) := Int.emod_lt_of_pos _ hposn
    simp only [next_track, if_neg hne, Option.map_some]
    rw [play_track_in_range fs s _ h0 h1]
    rfl
  · have h0 : (0 : Int) ≤ (s.current_index - 1).emod (s.current_tracks.length : Int) :=
      Int.emod_nonneg _ hne
    have h1 : (s.current_index - 1).emod (s.current_tracks.length : Int)
        < (s.current_tracks.length : Int) := Int.emod_lt_of_pos _ hposn
    simp only [prev_track, if_neg hne, Option.map_some]
    rw [play_track_in_range fs s _ h0 h1]
    rfl

/-- C4 witness: on a 3-track album, `next()` from index 2 yields index 0 and
`prev()` from index 0 yields index 2. -/
theorem c4_next_prev_wrap_witness :
    ((next_track (⟨[], []⟩ : FS)
          { initPState with current_tracks := ["a", "b", "c"], current_index := 2 }).map
        (fun t => t.current_index) = some (((2 : Int) + 1).emod ((3 : Nat) : Int))
      ∧ (prev_track (⟨[], []⟩ : FS)
          { initPState with current_tracks := ["a", "b", "c"], current_index := 2 }).map
        (fun t => t.current_index) = some (((2 : Int) - 1).emod ((3 : Nat) : Int)))
      ∧ ((next_track (⟨[], []⟩ : FS)
          { initPState with current_tracks := ["a", "b", "c"], current_index := 0 }).map
        (fun t => t.current_index) = some (((0 : Int) + 1).emod ((3 : Nat) : Int))
      ∧ (prev_track (⟨[], []⟩ : FS)
          { initPState with current_tracks := ["a", "b", "c"], current_index := 0 }).map
        (fun t => t.current_index) = some (((0 : Int) - 1).emod ((3 : Nat) : Int))) :=
  ⟨c4_next_prev_wrap _ _ (by decide), c4_next_prev_wrap _ _ (by decide)⟩

/-- C5: `play_track(index)` with an out-of-range index returns early, leaving
the whole controller state (current index, ending flag, engine commands,
now-playing display) unchanged and loading nothing; with an in-range index it
sets the index, clears the ending flag, loads and plays the path at that
index, and updates the play button and the now-playing display from that
path's metadata. -/
theorem c5_play_track_range_spec (fs : FS) (s : PState) (index : Int) :
    ((index < 0 ∨ (s.current_tracks.length : Int) ≤ index) → play_track fs s index = s)
      ∧ (0 ≤ index → index < (s.current_tracks.length : Int) →
          (play_track fs s index).current_tracks = s.current_tracks
          ∧ (play_track fs s index).current_index = index
          ∧ (play_track fs s index).track_ending = false
          ∧ (play_track fs s index).engine_media
              = some (s.current_tracks.getD index.toNat "")
          ∧ (play_track fs s index).engine_playing = true
          ∧ (play_track fs s index).play_button = true
          ∧ (play_track fs s index).now_playing
              = some (get_metadata fs (s.current_tracks.getD index.toNat ""))) := by
  constructor
  · intro hcond
    simp only [play_track, if_pos hcond]
  · intro h0 h1
    rw [play_track_in_range fs s index h0 h1]
    exact ⟨rfl, rfl, rfl, rfl, rfl, rfl, rfl⟩

/-- C5 witness: the in-range and out-of-range cases on a concrete two-track
state (`index = 5` is silently ignored, `index = 1` plays the second
track). -/
theorem c5_play_track_range_spec_witness :
    (((5 : Int) < 0 ∨ (((["p", "q"] : List String).length : Int) ≤ (5 : Int)))
        → play_track (⟨[], []⟩ : FS)
            { initPState with current_tracks := ["p", "q"] } 5
          = { initPState with current_tracks := ["p", "q"] })
      ∧ ((0 : Int) ≤ (1 : Int) → (1 : Int) < ((["p", "q"] : List String).length : Int) →
          (play_track (⟨[], []⟩ : FS) { initPState with current_tracks := ["p", "q"] } 1).current_tracks
              = ["p", "q"]
          ∧ (play_track (⟨[], []⟩ : FS) { initPState with current_tracks := ["p", "q"] } 1).current_index = 1
          ∧ (play_track (⟨[], []⟩ : FS) { initPState with current_tracks := ["p", "q"] } 1).track_ending = false
          ∧ (play_track (⟨[], []⟩ : FS) { initPState with current_tracks := ["p", "q"] } 1).engine_media
              = some ((["p", "q"] : List String).getD (1 : Int).toNat "")
          ∧ (play_track (⟨[], []⟩ : FS) { initPState with current_tracks := ["p", "q"] } 1).engine_playing = true
          ∧ (play_track (⟨[], []⟩ : FS) { initPState with current_tracks := ["p", "q"] } 1).play_button = true
          ∧ (play_track (⟨[], []⟩ : FS) { initPState with current_tracks := ["p", "q"] } 1).now_playing
              = some (get_metadata (⟨[], []⟩ : FS) ((["p", "q"] : List String).getD (1 : Int).toNat ""))) :=
  ⟨(c5_play_track_range_spec (⟨[], []⟩ : FS) { initPState with current_tracks := ["p", "q"] } 5).1,
   (c5_play_track_range_spec (⟨[], []⟩ : FS) { initPState with current_tracks := ["p", "q"] } 1).2⟩

/-- C9 counterexample: from the initial state (no album loaded, empty track
list), `next_track` and `prev_track` do not complete: `(index ± 1) %
len(current_tracks)` divides by zero and Python raises `ZeroDivisionError`
(modelled as `none`). -/
theorem c9_next_prev_raise_on_empty :
    next_track (⟨[], []⟩ : FS) initPState = none
      ∧ prev_track (⟨[], []⟩ : FS) initPState = none := by decide

/-- C9 (amended): `next_track` and `prev_track` complete without raising from
every state whose current track list is nonempty; on the empty track list —
in particular in the initial no-album-loaded state — they raise a
`ZeroDivisionError` instead of being a safe no-op. -/
theorem c9_next_prev_total_on_nonempty (fs : FS) (s : PState)
    (h : 0 < s.current_tracks.length) :
    (next_track fs s).isSome = true ∧ (prev_track fs s).isSome = true := by
  have hne : ((s.current_tracks.length : Int)) ≠ 0 := by
    exact_mod_cast Nat.pos_iff_ne_zero.mp h
  have hnil : s.current_tracks ≠ [] := List.ne_nil_of_length_pos h
  constructor
  · simp [next_track, if_neg hne, hnil]
  · simp [prev_track, if_neg hne, hnil]

/-- C9 witness: the amended statement on a one-track state. -/
theorem c9_next_prev_total_on_nonempty_witness :
    (next_track (⟨[], []⟩ : FS) { initPState with current_tracks := ["x"] }).isSome = true
      ∧ (prev_track (⟨[], []⟩ : FS) { initPState with current_tracks := ["x"] }).isSome = true :=
  c9_next_prev_total_on_nonempty (⟨[], []⟩ : FS)
    { initPState with current_tracks := ["x"] } (by decide)

/-- C8: rendering the favorites page filters out stale entries (albums
absent from the index) for display only, leaving the favorites list itself
untouched; and after a toggle of the currently open album (which is always
present in the index), both the in-memory list and the persisted list still
contain every stale entry. -/
theorem c8_stale_favorites_filtered_not_deleted (albums : List (String × List String))
    (page : Nat) (c : FavCtx)
    (hcur : (albums.lookup c.current_album).isSome = true) :
    (update_favorites_page albums page c).1 = c
      ∧ (update_favorites_page albums page c).2
          = ((c.favorites.filter (fun a => (albums.lookup a).isSome)).drop
              (page * favorites_per_page)).take favorites_per_page
      ∧ (toggle_favorite_action c).disk = some ((toggle_favorite_action c).favorites)
      ∧ (∀ x ∈ c.favorites, (albums.lookup x).isSome = false →
          x ∈ (toggle_favorite_action c).favorites
            ∧ x ∈ ((toggle_favorite_action c).disk.getD [])) := by
  refine ⟨rfl, rfl, rfl, ?_⟩
  intro x hx hstale
  have hne : x ≠ c.current_album := by
    intro he
    rw [he, hcur] at hstale
    simp at hstale
  have hmem : x ∈ toggle_favorite c.favorites c.current_album := by
    unfold toggle_favorite
    by_cases hc : c.current_album ∈ c.favorites
    · rw [if_pos hc]
      exact (List.mem_erase_of_ne hne).mpr hx
    · rw [if_neg hc]
      exact List.mem_append_left _ hx
  exact ⟨hmem, hmem⟩

/-- C8 witness: with index `{"Al"}`, favorites `["ghost", "Al"]` (where
`"ghost"` is stale) and current album `"Al"`: rendering filters `"ghost"`
out of the display, and after toggling `"Al"` the entry `"ghost"` is still
in memory and on disk. -/
theorem c8_stale_favorites_filtered_not_deleted_witness :
    "ghost" ∈ (toggle_favorite_action ⟨["ghost", "Al"], "Al", none⟩).favorites
      ∧ "ghost" ∈ ((toggle_favorite_action ⟨["ghost", "Al"], "Al", none⟩).disk.getD []) :=
  (c8_stale_favorites_filtered_not_deleted [("Al", [])] 0 ⟨["ghost", "Al"], "Al", none⟩
      (by decide)).2.2.2 "ghost" (by decide) (by decide)

/-! ### Lemmas about the grouping fold of `scan_music_library` -/

theorem lookupD_setdefaultAppend_self (l : List (String × List String)) (k v : String) :
    lookupD (setdefaultAppend l k v) k = lookupD l k ++ [v] := by
  induction l with
  | nil => simp [setdefaultAppend, lookupD]
  | cons hd tl ih =>
    obtain ⟨k0, vs⟩ := hd
    by_cases hk : k0 = k
    · subst hk
      simp [setdefaultAppend, lookupD, List.lookup_cons]
    · have hb : (k0 == k) = false := beq_eq_false_iff_ne.mpr hk
      have hb2 : (k == k0) = false := beq_eq_false_iff_ne.mpr (Ne.symm hk)
      simp only [setdefaultAppend, hb, Bool.false_eq_true, if_false, lookupD,
        List.lookup_cons, hb2] at *
      exact ih

theorem lookupD_setdefaultAppend_ne (l : List (String × List String)) (k v k2 : String)
    (h : k2 ≠ k) :
    lookupD (setdefaultAppend l k v) k2 = lookupD l k2 := by
  have hb : (k2 == k) = false := beq_eq_false_iff_ne.mpr h
  induction l with
  | nil => simp [setdefaultAppend, lookupD, List.lookup_cons, hb]
  | cons hd tl ih =>
    obtain ⟨k0, vs⟩ := hd
    by_cases hk : k0 = k
    · subst hk
      simp [setdefaultAppend, lookupD, List.lookup_cons, hb]
    · have hb3 : (k0 == k) = false := beq_eq_false_iff_ne.mpr hk
      simp only [setdefaultAppend, hb3, Bool.false_eq_true, if_false, lookupD,
        List.lookup_cons] at *
      cases hEq : (k2 == k0) with
      | true => simp
      | false => simpa [hEq] using ih

theorem albums_foldl (fs : FS) :
    ∀ (w : List String) (idx : Index) (A : String),
      lookupD ((w.foldl (scan_step fs) idx).albums) A
        = lookupD idx.albums A
            ++ w.filter (fun p => (get_metadata fs p).album == A) := by
  intro w
  induction w with
  | nil => intro idx A; simp
  | cons p w ih =>
    intro idx A
    rw [List.foldl_cons, ih (scan_step fs idx p) A]
    by_cases hA : (get_metadata fs p).album = A
    · rw [List.filter_cons_of_pos (by simpa using hA)]
      show lookupD (setdefaultAppend idx.albums (get_metadata fs p).album p) A ++ _ = _
      rw [hA, lookupD_setdefaultAppend_self]
      simp
    · rw [List.filter_cons_of_neg (by simpa using hA)]
      show lookupD (setdefaultAppend idx.albums (get_metadata fs p).album p) A ++ _ = _
      rw [lookupD_setdefaultAppend_ne _ _ _ _ (Ne.symm hA)]

theorem lookup_map_snd {β γ : Type} (f : β → γ) :
    ∀ (l : List (String × β)) (A : String),
      (l.map (fun kv => (kv.1, f kv.2))).lookup A = (l.lookup A).map f := by
  intro l
  induction l with
  | nil => intro A; simp
  | cons hd tl ih =>
    intro A
    obtain ⟨k0, v⟩ := hd
    cases hEq : (A == k0) with
    | true => simp [List.lookup_cons, hEq]
    | false => simp [List.lookup_cons, hEq, ih]

/-- The album lists the scan produces: exactly the discovery-order list of
that album's files, stably sorted by track number. -/
theorem scan_albums_lookup (fs : FS) (A : String) (l : List String)
    (h : (scan_music_library fs).albums.lookup A = some l) :
    l = List.insertionSort (track_le fs) (discovered_tracks fs A) := by
  unfold scan_music_library at h
  simp only [lookup_map_snd] at h
  obtain ⟨l0, hl0, hmap⟩ := Option.map_eq_some'.mp h
  have hD : lookupD (((walk_paths fs).foldl (scan_step fs) ⟨[], [], []⟩).albums) A = l0 := by
    rw [lookupD, hl0]
    rfl
  rw [albums_foldl fs (walk_paths fs) ⟨[], [], []⟩ A] at hD
  simp only [lookupD, List.lookup_nil, Option.getD_none, List.nil_append] at hD
  rw [← hmap, ← hD]
  rfl

/-- A vorbis `get(key, default)` with a nonempty default is nonempty when
every stored tag value list is nonempty (mutagen never stores empty value
lists for present keys). -/
theorem vorbis_getD_ne_nil (tags : List (String × List String)) (key : String)
    (dflt : List String) (wf : ∀ kv ∈ tags, kv.2 ≠ []) (hd : dflt ≠ []) :
    (vorbis_get tags key).getD dflt ≠ [] := by
  cases hv : vorbis_get tags key with
  | none => simpa using hd
  | some v =>
    simp only [Option.getD_some]
    unfold vorbis_get at hv
    obtain ⟨kv, hfind, hsnd⟩ := Option.map_eq_some'.mp hv
    exact hsnd ▸ wf kv (List.mem_of_find?_eq_some hfind)

/-- Track resolution for a FLAC file with readable tags: the `'track'` entry
is `int(str(tracknumber).split('/')[0])` with parse failures mapped to 0. -/
theorem flac_track_of_field (fs : FS) (path : String) (tags : List (String × List String))
    (pics : List Bytes) (hfile : fs.files.lookup path = some (.flac tags pics))
    (wf : ∀ kv ∈ tags, kv.2 ≠ []) (tn : String) (ts : List String)
    (htn : (vorbis_get tags "tracknumber").getD ["0"] = tn :: ts) :
    (get_metadata fs path).track = parse_track tn := by
  obtain ⟨t1, ts1, h1⟩ :=
    List.exists_cons_of_ne_nil (vorbis_getD_ne_nil tags "title" ["Unknown"] wf (by simp))
  obtain ⟨t2, ts2, h2⟩ :=
    List.exists_cons_of_ne_nil (vorbis_getD_ne_nil tags "artist" ["Unknown Artist"] wf (by simp))
  obtain ⟨t3, ts3, h3⟩ :=
    List.exists_cons_of_ne_nil (vorbis_getD_ne_nil tags "album" ["Unknown Album"] wf (by simp))
  simp only [get_metadata, hfile, h1, h2, h3, htn]
  cases pics <;> simp only [] <;> split <;> rfl

/-- Track resolution defaults to 0, not a large sentinel, when the
`tracknumber` field is absent or its text does not parse as an integer. -/
theorem flac_track_zero (fs : FS) (path : String) (tags : List (String × List String))
    (pics : List Bytes) (hfile : fs.files.lookup path = some (.flac tags pics))
    (hcond : vorbis_get tags "tracknumber" = none
      ∨ ∃ t ts, vorbis_get tags "tracknumber" = some (t :: ts)
          ∧ pythonInt (before_slash t) = none) :
    (get_metadata fs path).track = 0 := by
  simp only [get_metadata, hfile]
  split
  · rfl
  · split
    · rfl
    · split
      · rfl
      · rcases hcond with hnone | ⟨t, ts, hsome, hbad⟩
        · rw [hnone]
          split
          · rfl
          · rename_i tn ts2 htn
            simp only [Option.getD_none] at htn
            obtain ⟨rfl, -⟩ := List.cons.inj htn
            have h0 : parse_track "0" = 0 := by decide
            cases pics <;> simp [h0, defaultMeta]
        · rw [hsome]
          split
          · rfl
          · rename_i tn ts2 htn
            simp only [Option.getD_some] at htn
            obtain ⟨rfl, -⟩ := List.cons.inj htn
            have h0 : parse_track t = 0 := by simp [parse_track, hbad]
            cases pics <;> simp [h0, defaultMeta]

/-- C2 counterexample: a track with no track-number field resolves to 0 (the
raw `'track'` default — the `get('track', 999)` sentinel is dead because the
key is always present), so after the scan's sort it is placed *before* the
numbered track of its album, not after all numbered tracks. -/
theorem c2_untagged_track_sorts_first :
    (scan_music_library fs_untagged_first).albums.lookup "X"
        = some ["root/b.flac", "root/a.flac"]
      ∧ vorbis_get [("album", ["X"])] "tracknumber" = none
      ∧ get_track_number fs_untagged_first "root/b.flac" = 0
      ∧ get_track_number fs_untagged_first "root/a.flac" = 5 := by decide

/-- C2 (amended): every album's track list is sorted non-decreasing by
resolved track number with ties (and, more generally, any already-ordered
pair) kept in discovery order; but a track whose track-number field is
absent or unparseable resolves to 0 — not to a large sentinel — and hence
sorts before all positively numbered tracks rather than last. -/
theorem c2_tracks_sorted_stably_untagged_zero (fs : FS) (album : String) (l : List String)
    (h : (scan_music_library fs).albums.lookup album = some l) :
    l.Pairwise (fun a b => get_track_number fs a ≤ get_track_number fs b)
      ∧ (∀ a b : String, get_track_number fs a ≤ get_track_number fs b →
          List.Sublist [a, b] (discovered_tracks fs album) → List.Sublist [a, b] l)
      ∧ (∀ p tags pics, fs.files.lookup p = some (.flac tags pics) →
          (vorbis_get tags "tracknumber" = none
            ∨ ∃ t ts, vorbis_get tags "tracknumber" = some (t :: ts)
                ∧ pythonInt (before_slash t) = none) →
          get_track_number fs p = 0) := by
  have hl := scan_albums_lookup fs album l h
  refine ⟨?_, ?_, ?_⟩
  · rw [hl]
    exact List.sorted_insertionSort (track_le fs) (discovered_tracks fs album)
  · intro a b hab hsub
    rw [hl]
    exact List.pair_sublist_insertionSort hab hsub
  · intro p tags pics hf hcond
    exact flac_track_zero fs p tags pics hf hcond

/-- C2 witness: the amended sortedness on the concrete two-track album. -/
theorem c2_tracks_sorted_stably_untagged_zero_witness :
    (["root/b.flac", "root/a.flac"] : List String).Pairwise
      (fun a b => get_track_number fs_untagged_first a ≤ get_track_number fs_untagged_first b) :=
  (c2_tracks_sorted_stably_untagged_zero fs_untagged_first "X"
      ["root/b.flac", "root/a.flac"] (by decide)).1

theorem takeWhile_append_of_false {α : Type} (p : α → Bool) :
    ∀ (l1 l2 : List α) (c : α), (∀ x ∈ l1, p x = true) → p c = false →
      (l1 ++ c :: l2).takeWhile p = l1 := by
  intro l1
  induction l1 with
  | nil =>
    intro l2 c _ hc
    simp [List.takeWhile_cons, hc]
  | cons x xs ih =>
    intro l2 c hall hc
    have hx : p x = true := hall x (by simp)
    simp [List.takeWhile_cons, hx, ih l2 c (fun y hy => hall y (by simp [hy])) hc]

/-- On text of the form `N/Total` the substring before the first slash is
`N`, so a parseable `N` is what `parse_track` returns. -/
theorem parse_track_slash (pre rest : String) (hs : ∀ c ∈ pre.data, c ≠ '/')
    (k : Int) (hk : pythonInt pre = some k) :
    parse_track (pre ++ "/" ++ rest) = k := by
  have hdata : (pre ++ "/" ++ rest).data = pre.data ++ '/' :: rest.data := by
    simp [String.data_append]
  have htake : ((pre ++ "/" ++ rest).data).takeWhile (fun c => decide (c ≠ '/')) = pre.data := by
    rw [hdata]
    exact takeWhile_append_of_false _ pre.data rest.data '/'
      (fun x hx => decide_eq_true (hs x hx)) (by simp)
  unfold parse_track before_slash
  rw [htake]
  show (match pythonInt (String.mk pre.data) with
    | some n => n
    | none => (0 : Int)) = k
  have hmk : String.mk pre.data = pre := rfl
  rw [hmk, hk]

theorem id3_get_ne_some_nil (frames : List (String × List String)) (key : String)
    (wf : ∀ kv ∈ frames, kv.2 ≠ []) : id3_get frames key ≠ some [] := by
  intro h
  unfold id3_get at h
  obtain ⟨kv, hfind, hsnd⟩ := Option.map_eq_some'.mp h
  exact wf kv (List.mem_of_find?_eq_some hfind) hsnd

/-- Track resolution for an MP3 file with readable frames: `TRCK`'s first
text is parsed like the FLAC field; an absent frame leaves the 0 default. -/
theorem mp3_track (fs : FS) (path : String) (frames : List (String × List String))
    (apics : List Bytes) (hfile : fs.files.lookup path = some (.mp3 frames apics))
    (wf : ∀ kv ∈ frames, kv.2 ≠ []) :
    (get_metadata fs path).track
      = match id3_get frames "TRCK" with
        | some (tn :: _) => parse_track tn
        | _ => 0 := by
  simp only [get_metadata, hfile]
  split
  · exact absurd ‹id3_get frames "TIT2" = some []› (id3_get_ne_some_nil frames "TIT2" wf)
  · split
    · exact absurd ‹id3_get frames "TPE1" = some []› (id3_get_ne_some_nil frames "TPE1" wf)
    · split
      · exact absurd ‹id3_get frames "TALB" = some []› (id3_get_ne_some_nil frames "TALB" wf)
      · split
        · rename_i heq
          rw [heq]
          simp [defaultMeta]
        · rename_i hnot
          rcases h4 : id3_get frames "TRCK" with _ | (_ | ⟨tn, ts⟩)
          · simp only [h4]
            cases apics <;> simp [defaultMeta]
          · exact absurd h4 hnot
          · simp only [h4]
            cases apics <;> simp [defaultMeta]

/-- C6: a track-number text of the form `N/Total` parses to the integer `N`
(the substring before the slash); text that does not parse as an integer
yields 0 rather than an error; and a file with no track-number field at all
yields the documented default 0 — for FLAC `tracknumber` fields and MP3
`TRCK` frames alike. -/
theorem c6_track_number_parsing (fs : FS)
    (p1 p2 p3 p4 p5 p6 : String)
    (tags1 tags2 tags3 frames4 frames5 frames6 : List (String × List String))
    (pics1 pics2 pics3 : List Bytes) (ap4 ap5 ap6 : List Bytes)
    (pre rest t2 pre4 rest4 t5 : String)
    (ts1 ts2 ts4 ts5 : List String) (k k4 : Int)
    (h1 : fs.files.lookup p1 = some (.flac tags1 pics1))
    (w1 : ∀ kv ∈ tags1, kv.2 ≠ [])
    (f1 : vorbis_get tags1 "tracknumber" = some ((pre ++ "/" ++ rest) :: ts1))
    (hpre : ∀ c ∈ pre.data, c ≠ '/')
    (hk : pythonInt pre = some k)
    (h2 : fs.files.lookup p2 = some (.flac tags2 pics2))
    (w2 : ∀ kv ∈ tags2, kv.2 ≠ [])
    (f2 : vorbis_get tags2 "tracknumber" = some (t2 :: ts2))
    (hbad2 : pythonInt (before_slash t2) = none)
    (h3 : fs.files.lookup p3 = some (.flac tags3 pics3))
    (w3 : ∀ kv ∈ tags3, kv.2 ≠ [])
    (f3 : vorbis_get tags3 "tracknumber" = none)
    (h4 : fs.files.lookup p4 = some (.mp3 frames4 ap4))
    (w4 : ∀ kv ∈ frames4, kv.2 ≠ [])
    (f4 : id3_get frames4 "TRCK" = some ((pre4 ++ "/" ++ rest4) :: ts4))
    (hpre4 : ∀ c ∈ pre4.data, c ≠ '/')
    (hk4 : pythonInt pre4 = some k4)
    (h5 : fs.files.lookup p5 = some (.mp3 frames5 ap5))
    (w5 : ∀ kv ∈ frames5, kv.2 ≠ [])
    (f5 : id3_get frames5 "TRCK" = some (t5 :: ts5))
    (hbad5 : pythonInt (before_slash t5) = none)
    (h6 : fs.files.lookup p6 = some (.mp3 frames6 ap6))
    (w6 : ∀ kv ∈ frames6, kv.2 ≠ [])
    (f6 : id3_get frames6 "TRCK" = none) :
    get_track_number fs p1 = k
      ∧ get_track_number fs p2 = 0
      ∧ get_track_number fs p3 = 0
      ∧ get_track_number fs p4 = k4
      ∧ get_track_number fs p5 = 0
      ∧ get_track_number fs p6 = 0 := by
  refine ⟨?_, ?_, ?_, ?_, ?_, ?_⟩
  · show (get_metadata fs p1).track = k
    rw [flac_track_of_field fs p1 tags1 pics1 h1 w1 _ ts1 (by rw [f1]; rfl)]
    exact parse_track_slash pre rest hpre k hk
  · show (get_metadata fs p2).track = 0
    rw [flac_track_of_field fs p2 tags2 pics2 h2 w2 t2 ts2 (by rw [f2]; rfl)]
    simp [parse_track, hbad2]
  · show (get_metadata fs p3).track = 0
    rw [flac_track_of_field fs p3 tags3 pics3 h3 w3 "0" [] (by rw [f3]; rfl)]
    decide
  · show (get_metadata fs p4).track = k4
    rw [mp3_track fs p4 frames4 ap4 h4 w4, f4]
    exact parse_track_slash pre4 rest4 hpre4 k4 hk4
  · show (get_metadata fs p5).track = 0
    rw [mp3_track fs p5 frames5 ap5 h5 w5, f5]
    simp [parse_track, hbad5]
  · show (get_metadata fs p6).track = 0
    rw [mp3_track fs p6 frames6 ap6 h6 w6, f6]

/-- C6 witness: the six parsing paths on `fs_track_parsing`: `"3/12" ↦ 3`,
`"abc" ↦ 0`, missing field `↦ 0`, `"7/9" ↦ 7`, `"xy" ↦ 0`, missing frame
`↦ 0`. -/
theorem c6_track_number_parsing_witness :
    get_track_number fs_track_parsing "a1.flac" = 3
      ∧ get_track_number fs_track_parsing "a2.flac" = 0
      ∧ get_track_number fs_track_parsing "a3.flac" = 0
      ∧ get_track_number fs_track_parsing "a4.mp3" = 7
      ∧ get_track_number fs_track_parsing "a5.mp3" = 0
      ∧ get_track_number fs_track_parsing "a6.mp3" = 0 :=
  c6_track_number_parsing fs_track_parsing
    "a1.flac" "a2.flac" "a3.flac" "a4.mp3" "a5.mp3" "a6.mp3"
    [("tracknumber", ["3/12"])] [("tracknumber", ["abc"])] [("title", ["T"])]
    [("TRCK", ["7/9"])] [("TRCK", ["xy"])] [("TIT2", ["T"])]
    [] [] [] [] [] []
    "3" "12" "abc" "7" "9" "xy"
    [] [] [] [] 3 7
    (by decide) (by decide) (by decide) (by decide) (by decide)
    (by decide) (by decide) (by decide) (by decide)
    (by decide) (by decide) (by decide)
    (by decide) (by decide) (by decide) (by decide) (by decide)
    (by decide) (by decide) (by decide) (by decide)
    (by decide) (by decide) (by decide)

/-- Embedded art wins for a FLAC file with pictures: the first picture's
bytes are used and the folder fallback is never consulted. -/
theorem flac_art_embedded (fs : FS) (path : String) (tags : List (String × List String))
    (a : Bytes) (arts : List Bytes)
    (hfile : fs.files.lookup path = some (.flac tags (a :: arts)))
    (wf : ∀ kv ∈ tags, kv.2 ≠ []) :
    (get_metadata fs path).art = some a := by
  obtain ⟨t1, ts1, h1⟩ :=
    List.exists_cons_of_ne_nil (vorbis_getD_ne_nil tags "title" ["Unknown"] wf (by simp))
  obtain ⟨t2, ts2, h2⟩ :=
    List.exists_cons_of_ne_nil (vorbis_getD_ne_nil tags "artist" ["Unknown Artist"] wf (by simp))
  obtain ⟨t3, ts3, h3⟩ :=
    List.exists_cons_of_ne_nil (vorbis_getD_ne_nil tags "album" ["Unknown Album"] wf (by simp))
  obtain ⟨t4, ts4, h4⟩ :=
    List.exists_cons_of_ne_nil (vorbis_getD_ne_nil tags "tracknumber" ["0"] wf (by simp))
  simp [get_metadata, hfile, h1, h2, h3, h4]

/-- Without embedded pictures a FLAC file's art is the folder-image
fallback. -/
theorem flac_art_folder (fs : FS) (path : String) (tags : List (String × List String))
    (hfile : fs.files.lookup path = some (.flac tags []))
    (wf : ∀ kv ∈ tags, kv.2 ≠ []) :
    (get_metadata fs path).art = load_folder_art fs path := by
  obtain ⟨t1, ts1, h1⟩ :=
    List.exists_cons_of_ne_nil (vorbis_getD_ne_nil tags "title" ["Unknown"] wf (by simp))
  obtain ⟨t2, ts2, h2⟩ :=
    List.exists_cons_of_ne_nil (vorbis_getD_ne_nil tags "artist" ["Unknown Artist"] wf (by simp))
  obtain ⟨t3, ts3, h3⟩ :=
    List.exists_cons_of_ne_nil (vorbis_getD_ne_nil tags "album" ["Unknown Album"] wf (by simp))
  obtain ⟨t4, ts4, h4⟩ :=
    List.exists_cons_of_ne_nil (vorbis_getD_ne_nil tags "tracknumber" ["0"] wf (by simp))
  simp [get_metadata, hfile, h1, h2, h3, h4, defaultMeta]

theorem findSome?_of_first {α β : Type} (f : α → Option β) :
    ∀ (l : List α) (i : Nat) (hi : i < l.length) (b : β),
      (∀ j (hj : j < i), f (l.get ⟨j, hj.trans hi⟩) = none) →
      f (l.get ⟨i, hi⟩) = some b → l.findSome? f = some b := by
  intro l
  induction l with
  | nil =>
    intro i hi
    exact absurd hi (by simp)
  | cons x xs ih =>
    intro i hi b hnone hsome
    cases i with
    | zero =>
      rw [List.findSome?_cons]
      simp only [List.get] at hsome
      simp [hsome]
    | succ i2 =>
      have hx : f x = none := hnone 0 (Nat.succ_pos i2)
      rw [List.findSome?_cons]
      simp only [hx]
      exact ih i2 (Nat.lt_of_succ_lt_succ hi) b
        (fun j hj => hnone (j + 1) (Nat.succ_lt_succ hj)) hsome

theorem lookup_setdefaultMeta_of_some (l : List (String × AlbumMeta)) (k k2 : String)
    (m m2 : AlbumMeta) (h : l.lookup k2 = some m2) :
    (setdefaultMeta l k m).lookup k2 = some m2 := by
  induction l with
  | nil => simp at h
  | cons hd tl ih =>
    obtain ⟨k0, m0⟩ := hd
    by_cases hk : k0 = k
    · subst hk
      simpa [setdefaultMeta] using h
    · have hb : (k0 == k) = false := beq_eq_false_iff_ne.mpr hk
      simp only [setdefaultMeta, hb, Bool.false_eq_true, if_false]
      rw [List.lookup_cons] at h ⊢
      cases hEq : (k2 == k0) with
      | true => simpa [hEq] using h
      | false =>
        rw [hEq] at h
        exact ih h

theorem lookup_setdefaultMeta_none_self (l : List (String × AlbumMeta)) (k : String)
    (m : AlbumMeta) (h : l.lookup k = none) :
    (setdefaultMeta l k m).lookup k = some m := by
  induction l with
  | nil => simp [setdefaultMeta]
  | cons hd tl ih =>
    obtain ⟨k0, m0⟩ := hd
    rw [List.lookup_cons] at h
    cases hEq : (k == k0) with
    | true =>
      rw [hEq] at h
      exact absurd h (by simp)
    | false =>
      rw [hEq] at h
      have hk : k0 ≠ k := by
        intro he
        rw [he] at hEq
        simp at hEq
      have hb : (k0 == k) = false := beq_eq_false_iff_ne.mpr hk
      simp only [setdefaultMeta, hb, Bool.false_eq_true, if_false]
      rw [List.lookup_cons, hEq]
      exact ih h

theorem lookup_setdefaultMeta_ne (l : List (String × AlbumMeta)) (k k2 : String)
    (m : AlbumMeta) (h : k2 ≠ k) :
    (setdefaultMeta l k m).lookup k2 = l.lookup k2 := by
  have hb2 : (k2 == k) = false := beq_eq_false_iff_ne.mpr h
  induction l with
  | nil => simp [setdefaultMeta, List.lookup_cons, hb2]
  | cons hd tl ih =>
    obtain ⟨k0, m0⟩ := hd
    by_cases hk : k0 = k
    · subst hk
      simp [setdefaultMeta]
    · have hb : (k0 == k) = false := beq_eq_false_iff_ne.mpr hk
      simp only [setdefaultMeta, hb, Bool.false_eq_true, if_false]
      rw [List.lookup_cons, List.lookup_cons]
      cases hEq : (k2 == k0) with
      | true => rfl
      | false => exact ih

theorem meta_foldl_some (fs : FS) :
    ∀ (w : List String) (idx : Index) (A : String) (m : AlbumMeta),
      idx.album_metadata.lookup A = some m →
      ((w.foldl (scan_step fs) idx).album_metadata).lookup A = some m := by
  intro w
  induction w with
  | nil =>
    intro idx A m h
    simpa using h
  | cons p w ih =>
    intro idx A m h
    rw [List.foldl_cons]
    exact ih _ A m (lookup_setdefaultMeta_of_some _ _ _ _ _ h)

/-- `album_metadata.setdefault` means the entry an album ends up with is the
one contributed by its first-discovered file. -/
theorem meta_foldl_none (fs : FS) :
    ∀ (w : List String) (idx : Index) (A : String),
      idx.album_metadata.lookup A = none →
      ((w.foldl (scan_step fs) idx).album_metadata).lookup A
        = (w.find? (fun p => (get_metadata fs p).album == A)).map
            (fun p => AlbumMeta.mk (get_metadata fs p).artist (get_metadata fs p).art) := by
  intro w
  induction w with
  | nil =>
    intro idx A h
    simpa using h
  | cons p w ih =>
    intro idx A h
    rw [List.foldl_cons, List.find?_cons]
    by_cases hA : (get_metadata fs p).album = A
    · have hb : ((get_metadata fs p).album == A) = true := by simp [hA]
      rw [hb]
      have hstep : ((scan_step fs idx p).album_metadata).lookup A
          = some (AlbumMeta.mk (get_metadata fs p).artist (get_metadata fs p).art) := by
        show (setdefaultMeta idx.album_metadata (get_metadata fs p).album
            ⟨(get_metadata fs p).artist, (get_metadata fs p).art⟩).lookup A = _
        rw [hA]
        exact lookup_setdefaultMeta_none_self _ _ _ h
      exact meta_foldl_some fs w _ A _ hstep
    · have hb : ((get_metadata fs p).album == A) = false := by simp [hA]
      rw [hb]
      have hstep : ((scan_step fs idx p).album_metadata).lookup A = none := by
        show (setdefaultMeta idx.album_metadata (get_metadata fs p).album
            ⟨(get_metadata fs p).artist, (get_metadata fs p).art⟩).lookup A = _
        rw [lookup_setdefaultMeta_ne _ _ _ _ (Ne.symm hA)]
        exact h
      exact ih _ A hstep

/-- The `album_metadata` entry a scan leaves for an album: the artist and
art extracted from the album's first-discovered file. -/
theorem scan_album_metadata_lookup (fs : FS) (A : String) :
    (scan_music_library fs).album_metadata.lookup A
      = ((walk_paths fs).find? (fun p => (get_metadata fs p).album == A)).map
          (fun p => AlbumMeta.mk (get_metadata fs p).artist (get_metadata fs p).art) := by
  show (((walk_paths fs).foldl (scan_step fs) ⟨[], [], []⟩).album_metadata).lookup A = _
  exact meta_foldl_none fs (walk_paths fs) ⟨[], [], []⟩ A (by simp)

/-- C7 counterexample: the album's art is *not* the first non-null art found
among its tracks.  `album_metadata.setdefault` stores the first-discovered
track's entry and never overwrites it, so an album whose first track has no
art keeps `art = none` even though its second track carries embedded art. -/
theorem c7_album_art_ignores_later_tracks :
    (scan_music_library fs_first_track_artless).album_metadata.lookup "X"
        = some ⟨"Unknown Artist", none⟩
      ∧ (get_metadata fs_first_track_artless "d/second.flac").art = some [1, 2, 3] := by
  decide

/-- C7 (amended): per track, an embedded picture (the first picture in the
tag) is preferred — the folder fallback is not consulted; with no embedded
picture the containing directory is searched case-insensitively against the
fixed candidate list in order and the first match's raw bytes are used; but
the album's art is the resolved art of the album's *first-discovered* track
(which may be null even when a later track has art), not the first non-null
art among its tracks. -/
theorem c7_album_art_resolution (fs : FS)
    (p1 : String) (tags1 : List (String × List String)) (a1 : Bytes) (arts1 : List Bytes)
    (hf1 : fs.files.lookup p1 = some (.flac tags1 (a1 :: arts1)))
    (w1 : ∀ kv ∈ tags1, kv.2 ≠ [])
    (p2 : String) (tags2 : List (String × List String))
    (hf2 : fs.files.lookup p2 = some (.flac tags2 []))
    (w2 : ∀ kv ∈ tags2, kv.2 ≠ [])
    (p3 : String) (entries : List DirEntry) (i : Nat) (hi : i < art_candidates.length)
    (e : DirEntry)
    (hdir : fs.dirs.lookup (dirname p3) = some entries)
    (hjs : ∀ j (hj : j < i), lower_lookup entries (art_candidates.get ⟨j, hj.trans hi⟩) = none)
    (hie : lower_lookup entries (art_candidates.get ⟨i, hi⟩) = some e)
    (A p7 : String)
    (hfind : (walk_paths fs).find? (fun q => (get_metadata fs q).album == A) = some p7) :
    (get_metadata fs p1).art = some a1
      ∧ (get_metadata fs p2).art = load_folder_art fs p2
      ∧ load_folder_art fs p3 = some e.bytes
      ∧ (scan_music_library fs).album_metadata.lookup A
          = some ⟨(get_metadata fs p7).artist, (get_metadata fs p7).art⟩ := by
  refine ⟨flac_art_embedded fs p1 tags1 a1 arts1 hf1 w1,
          flac_art_folder fs p2 tags2 hf2 w2, ?_, ?_⟩
  · show load_folder_art fs p3 = _
    unfold load_folder_art
    rw [hdir]
    exact findSome?_of_first _ art_candidates i hi e.bytes
      (fun j hj => by rw [hjs j hj]; rfl)
      (by rw [hie]; rfl)
  · rw [scan_album_metadata_lookup fs A, hfind]
    rfl

/-- C7 witness: on `fs_art_resolution` — embedded art beats the sibling
`cover.jpg`, the artless sibling falls back to the folder image, the
case-insensitive search in `d2` skips the first three candidates and
matches `folder.png` as `Folder.PNG`, and the album entry is the first
walked track's. -/
theorem c7_album_art_resolution_witness :
    (get_metadata fs_art_resolution "d/e1.flac").art = some [1]
      ∧ (get_metadata fs_art_resolution "d/e2.flac").art
          = load_folder_art fs_art_resolution "d/e2.flac"
      ∧ load_folder_art fs_art_resolution "d2/x.flac"
          = some (DirEntry.mk "Folder.PNG" [7]).bytes
      ∧ (scan_music_library fs_art_resolution).album_metadata.lookup "Unknown Album"
          = some ⟨(get_metadata fs_art_resolution "d/e1.flac").artist,
                  (get_metadata fs_art_resolution "d/e1.flac").art⟩ :=
  c7_album_art_resolution fs_art_resolution
    "d/e1.flac" [] [1] [] (by decide) (by intro kv hkv; cases hkv)
    "d/e2.flac" [] (by decide) (by intro kv hkv; cases hkv)
    "d2/x.flac" [⟨"Folder.PNG", [7]⟩, ⟨"notes.txt", [8]⟩] 3 (by decide)
    (DirEntry.mk "Folder.PNG" [7]) (by decide)
    (by
      intro j hj
      have h3 : j = 0 ∨ j = 1 ∨ j = 2 := by omega
      rcases h3 with rfl | rfl | rfl <;> rfl)
    (by decide)
    "Unknown Album" "d/e1.flac" (by decide)

theorem mem_lookupD_artistAdd_self (l : List (String × List String)) (ar al : String) :
    al ∈ lookupD (artistAdd l ar al) ar := by
  induction l with
  | nil => simp [artistAdd, lookupD]
  | cons hd tl ih =>
    obtain ⟨k0, als⟩ := hd
    by_cases hk : k0 = ar
    · subst hk
      by_cases hmem : al ∈ als
      · simp [artistAdd, lookupD, List.lookup_cons, hmem]
      · simp [artistAdd, lookupD, List.lookup_cons, hmem]
    · have hb : (k0 == ar) = false := beq_eq_false_iff_ne.mpr hk
      have hb2 : (ar == k0) = false := beq_eq_false_iff_ne.mpr (Ne.symm hk)
      simp only [artistAdd, hb, Bool.false_eq_true, if_false]
      simpa [lookupD, List.lookup_cons, hb2] using ih

theorem mem_lookupD_artistAdd_mono (l : List (String × List String)) (ar al ar2 al2 : String)
    (h : al2 ∈ lookupD l ar2) :
    al2 ∈ lookupD (artistAdd l ar al) ar2 := by
  induction l with
  | nil => simp [lookupD] at h
  | cons hd tl ih =>
    obtain ⟨k0, als⟩ := hd
    by_cases hk : k0 = ar
    · subst hk
      cases hEq : (ar2 == k0) with
      | true =>
        have hm : al2 ∈ als := by
          simpa [lookupD, List.lookup_cons, hEq] using h
        by_cases hmem : al ∈ als
        · simpa [artistAdd, lookupD, List.lookup_cons, hEq, hmem] using hm
        · simp [artistAdd, lookupD, List.lookup_cons, hEq, hmem]
          exact Or.inl hm
      | false =>
        simp only [lookupD, List.lookup_cons, hEq] at h
        simpa [artistAdd, lookupD, List.lookup_cons, hEq] using h
    · have hb : (k0 == ar) = false := beq_eq_false_iff_ne.mpr hk
      simp only [artistAdd, hb, Bool.false_eq_true, if_false]
      cases hEq : (ar2 == k0) with
      | true =>
        simpa [lookupD, List.lookup_cons, hEq] using h
      | false =>
        simp only [lookupD, List.lookup_cons, hEq] at h ⊢
        exact ih h

theorem artists_foldl_mono (fs : FS) :
    ∀ (w : List String) (idx : Index) (ar al : String),
      al ∈ lookupD idx.artists ar →
      al ∈ lookupD ((w.foldl (scan_step fs) idx).artists) ar := by
  intro w
  induction w with
  | nil =>
    intro idx ar al h
    simpa using h
  | cons p w ih =>
    intro idx ar al h
    rw [List.foldl_cons]
    exact ih _ ar al (mem_lookupD_artistAdd_mono _ _ _ _ _ h)

/-- Every scanned file's album name ends up in its artist's album list. -/
theorem artists_foldl_mem (fs : FS) :
    ∀ (w : List String) (idx : Index) (p : String), p ∈ w →
      (get_metadata fs p).album
        ∈ lookupD ((w.foldl (scan_step fs) idx).artists) ((get_metadata fs p).artist) := by
  intro w
  induction w with
  | nil =>
    intro idx p h
    cases h
  | cons q w ih =>
    intro idx p h
    rw [List.foldl_cons]
    rcases List.mem_cons.mp h with rfl | h2
    · exact artists_foldl_mono fs w _ _ _ (mem_lookupD_artistAdd_self _ _ _)
    · exact ih _ p h2

theorem lookupD_map_sort (fs : FS) (l : List (String × List String)) (A : String) :
    lookupD (l.map (fun kv => (kv.1, List.insertionSort (track_le fs) kv.2))) A
      = List.insertionSort (track_le fs) (lookupD l A) := by
  rw [lookupD, lookup_map_snd]
  cases h : l.lookup A <;> simp [lookupD, h, List.insertionSort]

/-- C10: a scanned `.m4a` or `.ogg` file — parsed by mutagen into an `MP4` /
`OggVorbis` object, which matches neither the FLAC nor the MP3 `isinstance`
branch — always yields the full defaults (title "Unknown", artist "Unknown
Artist", album "Unknown Album", track 0) regardless of the tags it carries;
only the folder-image fallback can attach art; and the file is grouped under
"Unknown Album" and "Unknown Artist" in the index. -/
theorem c10_m4a_ogg_always_defaults (fs : FS) (path : String)
    (tags : List (String × List String))
    (h : fs.files.lookup path = some (.mp4 tags) ∨ fs.files.lookup path = some (.ogg tags))
    (hw : path ∈ walk_paths fs) :
    (get_metadata fs path).title = "Unknown"
      ∧ (get_metadata fs path).artist = "Unknown Artist"
      ∧ (get_metadata fs path).album = "Unknown Album"
      ∧ (get_metadata fs path).track = 0
      ∧ (get_metadata fs path).art = load_folder_art fs path
      ∧ path ∈ lookupD (scan_music_library fs).albums "Unknown Album"
      ∧ "Unknown Album" ∈ lookupD (scan_music_library fs).artists "Unknown Artist" := by
  have hm : get_metadata fs path = { defaultMeta with art := load_folder_art fs path } := by
    rcases h with h | h <;> simp [get_metadata, h, defaultMeta]
  have htitle : (get_metadata fs path).title = "Unknown" := by rw [hm]; rfl
  have hartist : (get_metadata fs path).artist = "Unknown Artist" := by rw [hm]; rfl
  have halbum : (get_metadata fs path).album = "Unknown Album" := by rw [hm]; rfl
  have htrack : (get_metadata fs path).track = 0 := by rw [hm]; rfl
  have hart : (get_metadata fs path).art = load_folder_art fs path := by rw [hm]
  refine ⟨htitle, hartist, halbum, htrack, hart, ?_, ?_⟩
  · show path ∈ lookupD
      ((((walk_paths fs).foldl (scan_step fs) ⟨[], [], []⟩).albums).map
        (fun kv => (kv.1, List.insertionSort (track_le fs) kv.2))) "Unknown Album"
    rw [lookupD_map_sort]
    rw [(List.perm_insertionSort (track_le fs) _).mem_iff]
    rw [albums_foldl fs (walk_paths fs) ⟨[], [], []⟩ "Unknown Album"]
    refine List.mem_append_right _ (List.mem_filter.mpr ⟨hw, ?_⟩)
    simp [halbum]
  · show "Unknown Album" ∈ lookupD
      (((walk_paths fs).foldl (scan_step fs) ⟨[], [], []⟩).artists) "Unknown Artist"
    have := artists_foldl_mem fs (walk_paths fs) ⟨[], [], []⟩ path hw
    rw [halbum, hartist] at this
    exact this

/-- C10 witness: the `.m4a` file of `fs_m4a_ignored` keeps all defaults
despite its `title`/`artist` tags, picks up the folder `cover.jpg`, and is
indexed under "Unknown Album" / "Unknown Artist". -/
theorem c10_m4a_ogg_always_defaults_witness :
    (get_metadata fs_m4a_ignored "m/x.m4a").title = "Unknown"
      ∧ (get_metadata fs_m4a_ignored "m/x.m4a").artist = "Unknown Artist"
      ∧ (get_metadata fs_m4a_ignored "m/x.m4a").album = "Unknown Album"
      ∧ (get_metadata fs_m4a_ignored "m/x.m4a").track = 0
      ∧ (get_metadata fs_m4a_ignored "m/x.m4a").art
          = load_folder_art fs_m4a_ignored "m/x.m4a"
      ∧ "m/x.m4a" ∈ lookupD (scan_music_library fs_m4a_ignored).albums "Unknown Album"
      ∧ "Unknown Album" ∈ lookupD (scan_music_library fs_m4a_ignored).artists "Unknown Artist" :=
  c10_m4a_ogg_always_defaults fs_m4a_ignored "m/x.m4a" [("title", ["T"]), ("artist", ["A"])]
    (Or.inl (by decide)) (by decide)
